import Mathlib

/-!
Shallow embedding of `mcq_generator.py` (the Gemini variant of the MCQ
generator).  Python strings are modelled as `List Char`; the network backend
and `json.loads` are modelled as oracle functions supplied as parameters; the
file system facts that `main` consults (existence of the input file, its text
content, the PDF page texts) are collected in an environment record.  `main`
is modelled as a pure function from that environment to an outcome value; the
only write to the output file in the source is the one performed by
`save_mcqs_to_file`, so an outcome other than `saved` means the output file is
neither created nor modified.
-/

namespace MCQGen

/-- Embedding of a Python string literal as a list of characters. -/
def str (s : String) : List Char := s.toList

/-- The whitespace characters stripped by Python's `str.strip()` (ASCII
whitespace: space, tab, newline, vertical tab, form feed, carriage return). -/
def isPySpace (c : Char) : Bool :=
  c == ' ' || c == '\t' || c == '\n' || c == Char.ofNat 11 || c == Char.ofNat 12 || c == '\r'

/-- Python `s.strip()`: remove leading and trailing whitespace. -/
def pstrip (s : List Char) : List Char :=
  ((s.dropWhile isPySpace).reverse.dropWhile isPySpace).reverse

/-- Python `s.rfind(c)` (successful case): index of the last occurrence of
`c` in `s`, `none` when `c` does not occur (Python returns `-1` there). -/
def rfindIdx (c : Char) (s : List Char) : Option Nat :=
  (s.reverse.findIdx? (· == c)).map (fun k => s.length - 1 - k)

/-- Lines 86-95 of `generate_mcqs_with_ai`, after stripping: `json_start =
text_response.find('[')`, `json_end = text_response.rfind(']') + 1`; on
failure (`json_start == -1 or json_end == 0`) the error branch is taken
(modelled as `none`), otherwise `text_response[json_start:json_end]`. -/
def bracket_slice (s : List Char) : Option (List Char) :=
  match s.findIdx? (· == '['), rfindIdx ']' s with
  | some js, some je => some ((s.drop js).take (je + 1 - js))
  | _, _ => none

/-- An MCQ record parsed from the model's JSON: a Python dict read with
`.get`, so every key may be absent. -/
structure MCQ where
  question : Option (List Char)
  options : Option (List (List Char))
  answer : Option (List Char)
deriving DecidableEq

/-- Lines 86-104 of `generate_mcqs_with_ai`: strip the response, cut out the
bracket-delimited slice (error branch returns `[]`), and `json.loads` it;
a `JSONDecodeError` (modelled by the oracle `loads` returning `none`) also
yields `[]`. -/
def handle_response (loads : List Char → Option (List MCQ)) (resp : List Char) : List MCQ :=
  match bracket_slice (pstrip resp) with
  | none => []
  | some s => (loads s).getD []

/-- The `few_shot_example` string literal of lines 53-69. -/
def few_shot_example : List Char :=
  str "\nHere is an example of the kind of output I want.\nContext: \"The mitochondrion is a double-membraned organelle found in most eukaryotic organisms. Mitochondria generate most of the cell\x27s supply of adenosine triphosphate (ATP), used as a source of chemical energy.\"\nDesired output:\n[\n  \x7b\n    \"question\": \"What is the primary function of the mitochondrion?\",\n    \"options\": [\n      \"To store genetic information\",\n      \"To generate chemical energy (ATP)\",\n      \"To synthesize proteins\",\n      \"To control cell division\"\n    ],\n    \"answer\": \"To generate chemical energy (ATP)\"\n  \x7d\n]\n"

/-- The part of the prompt of lines 73-78 that precedes the chapter text. -/
def prompt_intro (difficulty : List Char) : List Char :=
  str "You are an expert quiz creator. Your task is to generate 5 multiple-choice questions (MCQs) from the following text.\n" ++
  str "The difficulty of the questions should be \x27" ++ difficulty ++ str "\x27.\n" ++
  str "Follow the example provided to format your response.\n\n" ++
  str "--- EXAMPLE ---\n" ++ few_shot_example ++ str "\n\n" ++
  str "--- CHAPTER TEXT ---\n"

/-- The part of the prompt of lines 78-81 that follows the chapter text. -/
def prompt_tail : List Char :=
  str "\n---\n\n" ++
  str "Your response MUST be a valid JSON array of objects, where each object has \x27question\x27, \x27options\x27 (an array of 4 strings), and \x27answer\x27 (the correct option string). Do not include any explanatory text outside of the JSON array."

/-- The prompt of lines 73-82: the fixed instruction text around
`chapter_text[:8000]`. -/
def build_prompt (difficulty chapter_text : List Char) : List Char :=
  prompt_intro difficulty ++ chapter_text.take 8000 ++ prompt_tail

/-- `generate_mcqs_with_ai` (lines 40-107).  The network call
`model.generate_content(prompt)` is the oracle `backend` applied to the
prompt; `none` models an exception during the call (caught on lines 105-107
and turned into `[]`).  `json.loads` is the oracle `loads`; `none` models a
`JSONDecodeError` (lines 101-104, also `[]`).  The `model_name` argument of
the source only selects which backend object is built, so it is absorbed
into `backend`. -/
def generate_mcqs_with_ai (loads : List Char → Option (List MCQ))
    (backend : List Char → Option (List Char))
    (chapter_text difficulty : List Char) : List MCQ :=
  if pstrip chapter_text = [] then []
  else
    match backend (build_prompt difficulty chapter_text) with
    | none => []
    | some resp => handle_response loads resp

/-- The decimal digit character `chr(48 + d)`. -/
def digitChar (d : Nat) : Char := Char.ofNat (48 + d)

/-- Fuel-driven decimal rendering: repeatedly divide by 10, emitting the
least significant digit first into the accumulator. -/
def natCharsAux : Nat → Nat → List Char → List Char
  | 0, _, acc => acc
  | fuel + 1, n, acc =>
    if n < 10 then digitChar n :: acc
    else natCharsAux fuel (n / 10) (digitChar (n % 10) :: acc)

/-- Python's decimal rendering `str(n)` of a natural number (the fuel `n + 1`
always suffices since a number has at most `n + 1` digits). -/
def natChars (n : Nat) : List Char := natCharsAux (n + 1) n []

/-- Line 116: `f"Question {i+1}: {mcq.get('question', 'N/A')}"` (without the
trailing newline, which the line model adds). -/
def question_header (i : Nat) (m : MCQ) : List Char :=
  str "Question " ++ natChars (i + 1) ++ str ": " ++ m.question.getD (str "N/A")

/-- Line 119: `f"  {chr(65+j)}. {option}"`. -/
def option_line (j : Nat) (o : List Char) : List Char :=
  str "  " ++ [Char.ofNat (65 + j)] ++ str ". " ++ o

/-- Lines 117-119: one line per element of `mcq.get('options', [])`, labelled
by position. -/
def option_lines (m : MCQ) : List (List Char) :=
  (m.options.getD []).enum.map (fun p => option_line p.1 p.2)

/-- Line 120: `f"Answer: {mcq.get('answer', 'N/A')}"`. -/
def answer_line (m : MCQ) : List Char :=
  str "Answer: " ++ m.answer.getD (str "N/A")

/-- The lines written for one record on lines 116-120; the final `[]` is the
blank line produced by the `\n\n` at the end of line 120. -/
def mcq_block_lines (i : Nat) (m : MCQ) : List (List Char) :=
  question_header i m :: (option_lines m ++ [answer_line m, []])

/-- All lines written by the loop of lines 115-120. -/
def save_lines (mcqs : List MCQ) : List (List Char) :=
  mcqs.enum.flatMap (fun p => mcq_block_lines p.1 p.2)

/-- Join lines into file content, each line followed by a newline. -/
def unlines (ls : List (List Char)) : List Char :=
  ls.flatMap (fun l => l ++ ['\n'])

/-- `save_mcqs_to_file` (lines 110-121): the full content written to the
output file (mode `'w'`, so the file holds exactly this). -/
def save_mcqs_to_file (mcqs : List MCQ) : List Char :=
  unlines (save_lines mcqs)

/-- `os.path.splitext(p)[1]` (CPython `genericpath._splitext` with `sep='/'`,
`extsep='.'`): the extension starts at the last dot, provided that dot lies
after the last path separator and the basename is not entirely dots before
it. -/
def splitext_ext (p : List Char) : List Char :=
  match rfindIdx '.' p with
  | none => []
  | some dotIdx =>
    let start := match rfindIdx '/' p with
      | none => 0
      | some s => s + 1
    if ((p.drop start).take (dotIdx - start)).any (fun c => c != '.') then p.drop dotIdx
    else []

/-- Python `str.lower()` restricted to ASCII letters (the only case relevant
to the `.txt`/`.pdf` comparisons). -/
def ascii_lower (c : Char) : Char :=
  if 'A' ≤ c ∧ c ≤ 'Z' then Char.ofNat (c.toNat + 32) else c

/-- Line 142: `os.path.splitext(args.chapter_filepath)[1].lower()`. -/
def file_extension (p : List Char) : List Char :=
  (splitext_ext p).map ascii_lower

/-- The text accumulated by the loop of lines 32-33: each page's extracted
text followed by a newline. -/
def pdf_pages_text (pages : List (List Char)) : List Char :=
  pages.flatMap (fun pg => pg ++ ['\n'])

/-- `extract_text_from_pdf` (lines 18-37).  The oracle input is the list of
page texts produced by `PyPDF2` when extraction succeeds, and `none` when any
exception occurs (the `except` branch of lines 34-36 then returns `None`). -/
def extract_text_from_pdf (pdf_pages : Option (List (List Char))) : Option (List Char) :=
  match pdf_pages with
  | none => none
  | some pages => some (pdf_pages_text pages)

/-- The facts about the outside world that one run of `main` consults. -/
structure Env where
  file_exists : Bool
  txt_content : List Char
  pdf_pages : Option (List (List Char))
  backend : List Char → Option (List Char)
  loads : List Char → Option (List MCQ)

/-- The observable outcome of `main` (lines 124-167): which terminal branch
is taken.  Every constructor other than `saved` prints a diagnostic and
returns without touching the output file; `saved mcqs` is the branch of line
165 that writes `save_mcqs_to_file mcqs` to the output file. -/
inductive MainOutcome where
  | fileNotFound
  | pdfExtractionFailed
  | unsupportedExtension
  | emptyText
  | noMcqs
  | saved (mcqs : List MCQ)
deriving DecidableEq

/-- What a run writes to the output file: `some content` only in the `saved`
branch, `none` (file untouched) in every other branch. -/
def main_file_write : MainOutcome → Option (List Char)
  | .saved mcqs => some (save_mcqs_to_file mcqs)
  | _ => none

/-- Lines 158-167 of `main`: the empty-text check, the call to
`generate_mcqs_with_ai`, and the final `if mcqs:` (Python truthiness of a
list: non-empty). -/
def main_after_text (env : Env) (chapter_text difficulty : List Char) : MainOutcome :=
  if pstrip chapter_text = [] then .emptyText
  else
    let mcqs := generate_mcqs_with_ai env.loads env.backend chapter_text difficulty
    if mcqs = [] then .noMcqs else .saved mcqs

/-- `main` (lines 124-167): existence check, extension dispatch, extraction,
then the shared tail `main_after_text`. -/
def main (env : Env) (path difficulty : List Char) : MainOutcome :=
  if env.file_exists = false then .fileNotFound
  else if file_extension path = str ".pdf" then
    match extract_text_from_pdf env.pdf_pages with
    | none => .pdfExtractionFailed
    | some chapter_text => main_after_text env chapter_text difficulty
  else if file_extension path = str ".txt" then
    main_after_text env env.txt_content difficulty
  else .unsupportedExtension

/-- Split a list at every occurrence of `sep` (the separator is dropped);
models Python `str.split` with a one-character separator, and, applied to a
list of lines with `sep = []`, the grouping of lines into blank-line-separated
blocks. -/
def split_sep {α : Type} [DecidableEq α] (sep : α) : List α → List (List α)
  | [] => [[]]
  | c :: rest =>
    if c = sep then [] :: split_sep sep rest
    else
      match split_sep sep rest with
      | [] => [[c]]
      | l :: ls => (c :: l) :: ls

/-- The blank-line-separated non-empty blocks of a text file: split the
content into lines, split the line list at blank lines, and keep the
non-empty groups. -/
def question_blocks (file : List Char) : List (List (List Char)) :=
  (split_sep ([] : List Char) (split_sep '\n' file)).filter (fun b => !b.isEmpty)

/-- A `json.loads` oracle that fails on every input (every string is
malformed for it). -/
def loads_none : List Char → Option (List MCQ) := fun _ => none

/-- A backend oracle whose call always raises (modelled by `none`). -/
def backend_none : List Char → Option (List Char) := fun _ => none

/-- A concrete environment: the input file exists and holds `hello`. -/
def env_docx : Env := ⟨true, str "hello", none, backend_none, loads_none⟩

/-- A concrete environment whose text file holds only whitespace. -/
def env_blank : Env := ⟨true, str "  \n ", none, backend_none, loads_none⟩

/-- A concrete environment whose backend answers with a bracket-delimited
but malformed response, and whose `loads` rejects every string. -/
def env_badjson : Env := ⟨true, str "hello", none, fun _ => some (str "[oops]"), loads_none⟩

/-- A concrete environment in which PDF extraction raises. -/
def env_pdf_fail : Env := ⟨true, str "", none, backend_none, loads_none⟩

/-- The reading of claim C6's description of the success case: the page
texts joined by newline separators, with no trailing newline
(`List.intercalate`). -/
def pdf_text_claimed (pages : List (List Char)) : List Char :=
  List.intercalate ['\n'] pages

/-- A record with no `question`/`answer` keys and five options. -/
def five_option_mcq : MCQ :=
  ⟨none, some [str "v", str "w", str "x", str "y", str "z"], none⟩

/-- The lines of one record's block without its trailing blank separator
line. -/
def mcq_block_core (i : Nat) (m : MCQ) : List (List Char) :=
  question_header i m :: (option_lines m ++ [answer_line m])

/-- The rendered fields of a record contain no newline character (so the
record occupies exactly one blank-line-separated block of the output
file). -/
def nl_free_mcq (m : MCQ) : Prop :=
  '\n' ∉ m.question.getD (str "N/A") ∧ '\n' ∉ m.answer.getD (str "N/A")
  ∧ ∀ o ∈ m.options.getD [], '\n' ∉ o

instance nl_free_mcq_decidable (m : MCQ) : Decidable (nl_free_mcq m) := by
  unfold nl_free_mcq
  exact inferInstance

/-- A well-formed sample record. -/
def sample_mcq : MCQ := ⟨some (str "Q?"), some [str "one", str "two"], some (str "one")⟩

/-- A record whose question text contains a blank line. -/
def newline_mcq : MCQ := ⟨some (str "x\n\ny"), some [], some (str "a")⟩

/-- A record violating the data-model invariant: five options, and an answer
equal to none of them. -/
def bad_mcq : MCQ :=
  ⟨some (str "q"), some [str "o1", str "o2", str "o3", str "o4", str "o5"], some (str "zzz")⟩

/-- A concrete environment whose backend answers `[x]` and whose `loads`
parses every string to the single invalid record `bad_mcq`. -/
def env_bad : Env := ⟨true, str "hello", none, fun _ => some (str "[x]"), fun _ => some [bad_mcq]⟩

/-- The data-model invariant claimed for every written MCQ record: an options
sequence of exactly 4 strings, and an answer equal to one of them. -/
def mcq_invariant (m : MCQ) : Prop :=
  ∃ opts ans, m.options = some opts ∧ m.answer = some ans ∧ opts.length = 4 ∧ ans ∈ opts

/-- A string free of both square brackets. -/
def bracket_free (l : List Char) : Prop := '[' ∉ l ∧ ']' ∉ l

/-- A response wrapped in markdown code-fence markers with surrounding
whitespace. -/
def fence_wrap (ws1 ws2 t : List Char) : List Char :=
  ws1 ++ str "```json\n" ++ t ++ str "\n```" ++ ws2

/-! ### Helper lemmas about `main` -/

theorem main_txt (env : Env) (path difficulty : List Char)
    (hex : env.file_exists = true) (hext : file_extension path = str ".txt") :
    main env path difficulty = main_after_text env env.txt_content difficulty := by
  have hne : file_extension path ≠ str ".pdf" := by
    rw [hext]; decide
  unfold main
  rw [hex, if_neg (by simp), if_neg hne, if_pos hext]

theorem main_pdf (env : Env) (path difficulty : List Char)
    (hex : env.file_exists = true) (hext : file_extension path = str ".pdf") :
    main env path difficulty
      = match extract_text_from_pdf env.pdf_pages with
        | none => .pdfExtractionFailed
        | some chapter_text => main_after_text env chapter_text difficulty := by
  unfold main
  rw [hex, if_neg (by simp), if_pos hext]

/-- Claim C1: for chapter text longer than 8000 characters, the prompt that
`generate_mcqs_with_ai` passes to the backend decomposes into a fixed prefix,
exactly the first 8000 characters of the text, and a fixed suffix; the
chapter-text section has length exactly 8000 and agrees with the text at
every position below 8000, so no character at position 8000 or beyond
appears in it. -/
theorem c1_prompt_truncation (difficulty chapter_text : List Char)
    (h : 8000 < chapter_text.length) :
    build_prompt difficulty chapter_text
      = prompt_intro difficulty ++ chapter_text.take 8000 ++ prompt_tail
    ∧ (chapter_text.take 8000).length = 8000
    ∧ (∀ j, j < 8000 → (chapter_text.take 8000)[j]? = chapter_text[j]?)
    ∧ (∀ loads backend, pstrip chapter_text ≠ [] →
        generate_mcqs_with_ai loads backend chapter_text difficulty
          = match backend (build_prompt difficulty chapter_text) with
            | none => []
            | some resp => handle_response loads resp) := by
  refine ⟨rfl, ?_, ?_, ?_⟩
  · rw [List.length_take]
    omega
  · intro j hj
    exact List.getElem?_take_of_lt hj
  · intro loads backend hne
    unfold generate_mcqs_with_ai
    rw [if_neg hne]

/-- Witness for C1 at a concrete 8001-character text. -/
theorem c1_prompt_truncation_witness :
    8000 < (List.replicate 8001 'a').length
    ∧ (build_prompt (str "medium") (List.replicate 8001 'a')
        = prompt_intro (str "medium") ++ (List.replicate 8001 'a').take 8000 ++ prompt_tail
      ∧ ((List.replicate 8001 'a').take 8000).length = 8000
      ∧ (∀ j, j < 8000 →
          ((List.replicate 8001 'a').take 8000)[j]? = (List.replicate 8001 'a')[j]?)
      ∧ (∀ loads backend, pstrip (List.replicate 8001 'a') ≠ [] →
          generate_mcqs_with_ai loads backend (List.replicate 8001 'a') (str "medium")
            = match backend (build_prompt (str "medium") (List.replicate 8001 'a')) with
              | none => []
              | some resp => handle_response loads resp)) :=
  ⟨by rw [List.length_replicate]; omega,
    c1_prompt_truncation (str "medium") (List.replicate 8001 'a')
      (by rw [List.length_replicate]; omega)⟩

/-- Claim C5: for an input path whose (lower-cased) extension is neither
`.txt` nor `.pdf`, `main` never reaches the saving branch (the output file is
neither created nor modified), and when the input file exists it takes
exactly the unsupported-extension error branch of lines 154-156. -/
theorem c5_unsupported_extension (env : Env) (path difficulty : List Char)
    (h1 : file_extension path ≠ str ".txt") (h2 : file_extension path ≠ str ".pdf") :
    (∀ mcqs, main env path difficulty ≠ .saved mcqs)
    ∧ main_file_write (main env path difficulty) = none
    ∧ (env.file_exists = true → main env path difficulty = .unsupportedExtension) := by
  by_cases hex : env.file_exists = false
  · have hmain : main env path difficulty = .fileNotFound := by
      unfold main
      rw [if_pos hex]
    refine ⟨fun mcqs => by rw [hmain]; simp, by rw [hmain]; rfl, fun hx => ?_⟩
    rw [hex] at hx
    simp at hx
  · have hmain : main env path difficulty = .unsupportedExtension := by
      unfold main
      rw [if_neg hex, if_neg h2, if_neg h1]
    exact ⟨fun mcqs => by rw [hmain]; simp, by rw [hmain]; rfl, fun _ => hmain⟩

/-- Witness for C5 at the concrete path `notes.docx`. -/
theorem c5_unsupported_extension_witness :
    (file_extension (str "notes.docx") ≠ str ".txt"
      ∧ file_extension (str "notes.docx") ≠ str ".pdf")
    ∧ ((∀ mcqs, main env_docx (str "notes.docx") (str "medium") ≠ .saved mcqs)
      ∧ main_file_write (main env_docx (str "notes.docx") (str "medium")) = none
      ∧ (env_docx.file_exists = true →
          main env_docx (str "notes.docx") (str "medium") = .unsupportedExtension)) :=
  ⟨⟨by decide, by decide⟩,
    c5_unsupported_extension env_docx (str "notes.docx") (str "medium") (by decide) (by decide)⟩

/-- Claim C9: for a `.txt` input, `main` hands the file content
`env.txt_content` verbatim to the rest of the pipeline as the chapter text
(the round trip before the 8000-character truncation is the identity). -/
theorem c9_txt_roundtrip (env : Env) (path difficulty : List Char)
    (hex : env.file_exists = true) (hext : file_extension path = str ".txt") :
    main env path difficulty = main_after_text env env.txt_content difficulty :=
  main_txt env path difficulty hex hext

/-- Witness for C9 at the concrete path `chapter.txt`. -/
theorem c9_txt_roundtrip_witness :
    (env_docx.file_exists = true ∧ file_extension (str "chapter.txt") = str ".txt")
    ∧ main env_docx (str "chapter.txt") (str "medium")
        = main_after_text env_docx env_docx.txt_content (str "medium") :=
  ⟨⟨rfl, by decide⟩, c9_txt_roundtrip env_docx (str "chapter.txt") (str "medium") rfl (by decide)⟩

/-- Claim C8: when the chapter text obtained from the input file is empty or
whitespace-only, `main` takes the diagnostic branch of lines 158-160 and the
output file is not written. -/
theorem c8_empty_text (env : Env) (path difficulty : List Char)
    (hex : env.file_exists = true)
    (h : (file_extension path = str ".txt" ∧ pstrip env.txt_content = [])
       ∨ (file_extension path = str ".pdf" ∧ ∃ pages, env.pdf_pages = some pages
            ∧ pstrip (pdf_pages_text pages) = [])) :
    main env path difficulty = .emptyText
    ∧ main_file_write (main env path difficulty) = none := by
  have hmain : main env path difficulty = .emptyText := by
    rcases h with ⟨hext, hempty⟩ | ⟨hext, pages, hpages, hempty⟩
    · rw [main_txt env path difficulty hex hext]
      unfold main_after_text
      rw [if_pos hempty]
    · rw [main_pdf env path difficulty hex hext, hpages]
      show main_after_text env (pdf_pages_text pages) difficulty = .emptyText
      unfold main_after_text
      rw [if_pos hempty]
  exact ⟨hmain, by rw [hmain]; rfl⟩

/-- Witness for C8 at a whitespace-only `.txt` input. -/
theorem c8_empty_text_witness :
    (env_blank.file_exists = true
      ∧ file_extension (str "a.txt") = str ".txt" ∧ pstrip env_blank.txt_content = [])
    ∧ main env_blank (str "a.txt") (str "medium") = .emptyText
    ∧ main_file_write (main env_blank (str "a.txt") (str "medium")) = none :=
  ⟨⟨rfl, by decide, by decide⟩,
    c8_empty_text env_blank (str "a.txt") (str "medium") rfl (Or.inl ⟨by decide, by decide⟩)⟩

/-- Claim C4: when the bracket-delimited content of the backend response is
malformed JSON (the `loads` oracle fails on it), `generate_mcqs_with_ai`
returns the empty list, `main` takes the `No MCQs were generated` branch of
lines 166-167, and nothing is written to the output file. -/
theorem c4_malformed_json (env : Env) (path difficulty s resp : List Char)
    (hex : env.file_exists = true)
    (hext : file_extension path = str ".txt")
    (hne : pstrip env.txt_content ≠ [])
    (hresp : env.backend (build_prompt difficulty env.txt_content) = some resp)
    (hslice : bracket_slice (pstrip resp) = some s)
    (hbad : env.loads s = none) :
    generate_mcqs_with_ai env.loads env.backend env.txt_content difficulty = []
    ∧ main env path difficulty = .noMcqs
    ∧ main_file_write (main env path difficulty) = none := by
  have hgen : generate_mcqs_with_ai env.loads env.backend env.txt_content difficulty = [] := by
    unfold generate_mcqs_with_ai
    rw [if_neg hne, hresp]
    show handle_response env.loads resp = []
    unfold handle_response
    rw [hslice]
    show (env.loads s).getD [] = []
    rw [hbad]
    rfl
  have hmain : main env path difficulty = .noMcqs := by
    rw [main_txt env path difficulty hex hext]
    unfold main_after_text
    rw [if_neg hne]
    simp only [hgen]
    rfl
  exact ⟨hgen, hmain, by rw [hmain]; rfl⟩

/-- Witness for C4 at the concrete malformed response `[oops]`. -/
theorem c4_malformed_json_witness :
    (bracket_slice (pstrip (str "[oops]")) = some (str "[oops]")
      ∧ env_badjson.loads (str "[oops]") = none)
    ∧ generate_mcqs_with_ai env_badjson.loads env_badjson.backend
        env_badjson.txt_content (str "medium") = []
    ∧ main env_badjson (str "a.txt") (str "medium") = .noMcqs
    ∧ main_file_write (main env_badjson (str "a.txt") (str "medium")) = none :=
  ⟨⟨by decide, rfl⟩,
    c4_malformed_json env_badjson (str "a.txt") (str "medium") (str "[oops]") (str "[oops]")
      rfl (by decide) (by decide) rfl (by decide) rfl⟩

/-- Counterexample to claim C6 as stated: on the two pages `a` and `b` the
code produces `a\nb\n` (a newline after every page), not the
newline-separated concatenation `a\nb`. -/
theorem c6_counterexample :
    extract_text_from_pdf (some [str "a", str "b"])
      ≠ some (pdf_text_claimed [str "a", str "b"]) := by
  decide

/-- Claim C6 (amended): `extract_text_from_pdf` returns the concatenation of
each page's text with a newline appended after every page (so with a trailing
newline); on any extraction exception it returns the null result and `main`
aborts through the branch of lines 147-149 without writing the output
file. -/
theorem c6_pdf_extraction (env : Env) (path difficulty : List Char)
    (hex : env.file_exists = true)
    (hext : file_extension path = str ".pdf")
    (hfail : env.pdf_pages = none) :
    (∀ pages, extract_text_from_pdf (some pages) = some (pdf_pages_text pages))
    ∧ extract_text_from_pdf none = none
    ∧ main env path difficulty = .pdfExtractionFailed
    ∧ main_file_write (main env path difficulty) = none := by
  have hmain : main env path difficulty = .pdfExtractionFailed := by
    rw [main_pdf env path difficulty hex hext]
    unfold extract_text_from_pdf
    rw [hfail]
  exact ⟨fun pages => rfl, rfl, hmain, by rw [hmain]; rfl⟩

/-- Witness for C6 at the concrete path `doc.pdf` with failing extraction. -/
theorem c6_pdf_extraction_witness :
    (env_pdf_fail.file_exists = true
      ∧ file_extension (str "doc.pdf") = str ".pdf" ∧ env_pdf_fail.pdf_pages = none)
    ∧ ((∀ pages, extract_text_from_pdf (some pages) = some (pdf_pages_text pages))
      ∧ extract_text_from_pdf none = none
      ∧ main env_pdf_fail (str "doc.pdf") (str "medium") = .pdfExtractionFailed
      ∧ main_file_write (main env_pdf_fail (str "doc.pdf") (str "medium")) = none) :=
  ⟨⟨rfl, by decide, rfl⟩,
    c6_pdf_extraction env_pdf_fail (str "doc.pdf") (str "medium") rfl (by decide) rfl⟩

/-- Claim C10: `save_mcqs_to_file` renders every record, whatever keys it
has: an absent `question` or `answer` key falls back to the literal `N/A`, an
absent `options` key yields zero option lines, and an options list of any
length gets one letter-labelled line per element (label `chr(65+j)` by
position, so a fifth option would be labelled `E`).  Totality holds by
construction: the rendering functions are defined for every record. -/
theorem c10_total_rendering (m : MCQ) (i : Nat) :
    (m.question = none →
      question_header i m = str "Question " ++ natChars (i + 1) ++ str ": N/A")
    ∧ (m.answer = none → answer_line m = str "Answer: N/A")
    ∧ (m.options = none → option_lines m = [])
    ∧ (∀ opts, m.options = some opts →
        (option_lines m).length = opts.length
        ∧ ∀ j, (option_lines m)[j]? = (opts[j]?).map
            (fun o => str "  " ++ [Char.ofNat (65 + j)] ++ str ". " ++ o))
    ∧ mcq_block_lines i m = question_header i m :: (option_lines m ++ [answer_line m, []]) := by
  refine ⟨?_, ?_, ?_, ?_, rfl⟩
  · intro hq
    unfold question_header
    rw [hq, Option.getD_none, List.append_assoc,
      (by decide : str ": " ++ str "N/A" = str ": N/A")]
  · intro ha
    unfold answer_line
    rw [ha, Option.getD_none]
    decide
  · intro ho
    unfold option_lines
    rw [ho]
    rfl
  · intro opts ho
    unfold option_lines
    rw [ho, Option.getD_some]
    refine ⟨by simp, fun j => ?_⟩
    simp only [List.enum, List.getElem?_map, List.getElem?_enumFrom, Option.map_map]
    cases opts[j]? <;> simp [option_line]

/-- Witness for C10 at a five-option record with missing keys; the extra
conjunct exhibits the fifth option line, labelled `E`. -/
theorem c10_total_rendering_witness :
    ((five_option_mcq.question = none →
      question_header 0 five_option_mcq = str "Question " ++ natChars 1 ++ str ": N/A")
    ∧ (five_option_mcq.answer = none → answer_line five_option_mcq = str "Answer: N/A")
    ∧ (five_option_mcq.options = none → option_lines five_option_mcq = [])
    ∧ (∀ opts, five_option_mcq.options = some opts →
        (option_lines five_option_mcq).length = opts.length
        ∧ ∀ j, (option_lines five_option_mcq)[j]? = (opts[j]?).map
            (fun o => str "  " ++ [Char.ofNat (65 + j)] ++ str ". " ++ o))
    ∧ mcq_block_lines 0 five_option_mcq
        = question_header 0 five_option_mcq
            :: (option_lines five_option_mcq ++ [answer_line five_option_mcq, []]))
    ∧ (option_lines five_option_mcq)[4]? = some (str "  E. z") :=
  ⟨c10_total_rendering five_option_mcq 0, by decide⟩

/-! ### Lemmas about `split_sep` and the block structure of the output -/

theorem split_sep_cons_eq {α : Type} [DecidableEq α] (sep c : α) (rest : List α) :
    split_sep sep (c :: rest)
      = if c = sep then [] :: split_sep sep rest
        else match split_sep sep rest with
          | [] => [[c]]
          | l :: ls => (c :: l) :: ls := by
  rw [split_sep]

theorem split_sep_append_sep {α : Type} [DecidableEq α] (sep : α) (l rest : List α)
    (h : sep ∉ l) :
    split_sep sep (l ++ sep :: rest) = l :: split_sep sep rest := by
  induction l with
  | nil =>
    rw [List.nil_append, split_sep_cons_eq, if_pos rfl]
  | cons c l ih =>
    have hc : ¬ c = sep := fun e => h (by rw [e]; exact List.mem_cons_self sep l)
    have h' : sep ∉ l := fun hm => h (List.mem_cons_of_mem c hm)
    rw [List.cons_append, split_sep_cons_eq, if_neg hc, ih h']

theorem unlines_cons (l : List Char) (ls : List (List Char)) :
    unlines (l :: ls) = l ++ '\n' :: unlines ls := by
  simp [unlines]

theorem split_lines_unlines (ls : List (List Char)) (h : ∀ l ∈ ls, '\n' ∉ l) :
    split_sep '\n' (unlines ls) = ls ++ [[]] := by
  induction ls with
  | nil => simp [unlines, split_sep]
  | cons l ls ih =>
    rw [unlines_cons, split_sep_append_sep '\n' l (unlines ls) (h l (List.mem_cons_self l ls)),
      ih (fun x hx => h x (List.mem_cons_of_mem l hx))]
    rfl

theorem split_blocks (bs : List (List (List Char))) (tail : List (List Char))
    (h : ∀ b ∈ bs, ([] : List Char) ∉ b) :
    split_sep ([] : List Char) (bs.flatMap (fun b => b ++ [[]]) ++ tail)
      = bs ++ split_sep ([] : List Char) tail := by
  induction bs with
  | nil => simp
  | cons b bs ih =>
    have hb : ([] : List Char) ∉ b := h b (List.mem_cons_self b bs)
    have hshape : (b ++ [[]]) ++ bs.flatMap (fun b => b ++ [[]]) ++ tail
        = b ++ (([] : List Char) :: (bs.flatMap (fun b => b ++ [[]]) ++ tail)) := by
      simp
    rw [List.flatMap_cons, List.append_assoc, ← List.append_assoc, hshape,
      split_sep_append_sep _ b _ hb, ih (fun x hx => h x (List.mem_cons_of_mem b hx))]
    rfl

theorem mcq_block_lines_eq (i : Nat) (m : MCQ) :
    mcq_block_lines i m = mcq_block_core i m ++ [[]] := by
  simp [mcq_block_lines, mcq_block_core]

theorem save_lines_eq (mcqs : List MCQ) :
    save_lines mcqs
      = (mcqs.enum.map (fun p => mcq_block_core p.1 p.2)).flatMap (fun b => b ++ [[]]) := by
  rw [save_lines, List.flatMap_map]
  congr 1
  funext p
  exact mcq_block_lines_eq p.1 p.2

/-! ### Character-level facts about the rendered lines -/

theorem char_ofNat_toNat (n : Nat) : (Char.ofNat n).toNat = n ∨ (Char.ofNat n).toNat = 0 := by
  unfold Char.ofNat
  split
  · left
    rfl
  · right
    rfl

theorem char_ofNat_ne_newline (n : Nat) (h : 10 < n) : Char.ofNat n ≠ '\n' := by
  intro he
  have ht := congrArg Char.toNat he
  have h10 : ('\n').toNat = 10 := by decide
  rw [h10] at ht
  rcases char_ofNat_toNat n with hn | hn <;> rw [hn] at ht <;> omega

theorem digitChar_bounds : ∀ d : Fin 10, 48 ≤ (digitChar d.val).toNat ∧ (digitChar d.val).toNat ≤ 57 := by
  decide

theorem natCharsAux_digits (fuel : Nat) : ∀ (n : Nat) (acc : List Char),
    (∀ c ∈ acc, 48 ≤ c.toNat ∧ c.toNat ≤ 57) →
    ∀ c ∈ natCharsAux fuel n acc, 48 ≤ c.toNat ∧ c.toNat ≤ 57 := by
  induction fuel with
  | zero => exact fun n acc hacc c hc => hacc c hc
  | succ fuel ih =>
    intro n acc hacc c hc
    unfold natCharsAux at hc
    by_cases h : n < 10
    · rw [if_pos h] at hc
      rcases List.mem_cons.mp hc with rfl | hc
      · exact digitChar_bounds ⟨n, h⟩
      · exact hacc c hc
    · rw [if_neg h] at hc
      refine ih (n / 10) (digitChar (n % 10) :: acc) ?_ c hc
      intro x hx
      rcases List.mem_cons.mp hx with rfl | hx
      · exact digitChar_bounds ⟨n % 10, Nat.mod_lt _ (by omega)⟩
      · exact hacc x hx

theorem nl_not_mem_natChars (n : Nat) : '\n' ∉ natChars n := by
  intro h
  have hb := natCharsAux_digits (n + 1) n [] (by simp) '\n' h
  revert hb
  decide

theorem question_header_ne_nil (i : Nat) (m : MCQ) : question_header i m ≠ [] := by
  intro h
  have hlen := congrArg List.length h
  simp only [question_header, List.length_append, List.length_nil] at hlen
  have h9 : (str "Question ").length = 9 := by decide
  omega

theorem option_line_ne_nil (j : Nat) (o : List Char) : option_line j o ≠ [] := by
  intro h
  have hlen := congrArg List.length h
  simp only [option_line, List.length_append, List.length_nil] at hlen
  have h2 : (str "  ").length = 2 := by decide
  omega

theorem answer_line_ne_nil (m : MCQ) : answer_line m ≠ [] := by
  intro h
  have hlen := congrArg List.length h
  simp only [answer_line, List.length_append, List.length_nil] at hlen
  have h8 : (str "Answer: ").length = 8 := by decide
  omega

theorem nl_not_mem_question_header (i : Nat) (m : MCQ)
    (h : '\n' ∉ m.question.getD (str "N/A")) : '\n' ∉ question_header i m := by
  intro hmem
  unfold question_header at hmem
  rcases List.mem_append.mp hmem with hmem | hmem
  · rcases List.mem_append.mp hmem with hmem | hmem
    · rcases List.mem_append.mp hmem with hmem | hmem
      · revert hmem
        decide
      · exact nl_not_mem_natChars _ hmem
    · revert hmem
      decide
  · exact h hmem

theorem nl_not_mem_option_line (j : Nat) (o : List Char) (h : '\n' ∉ o) :
    '\n' ∉ option_line j o := by
  intro hmem
  unfold option_line at hmem
  rcases List.mem_append.mp hmem with hmem | hmem
  · rcases List.mem_append.mp hmem with hmem | hmem
    · rcases List.mem_append.mp hmem with hmem | hmem
      · revert hmem
        decide
      · rw [List.mem_singleton] at hmem
        exact char_ofNat_ne_newline (65 + j) (by omega) hmem.symm
    · revert hmem
      decide
  · exact h hmem

theorem nl_not_mem_answer_line (m : MCQ) (h : '\n' ∉ m.answer.getD (str "N/A")) :
    '\n' ∉ answer_line m := by
  intro hmem
  unfold answer_line at hmem
  rcases List.mem_append.mp hmem with hmem | hmem
  · revert hmem
    decide
  · exact h hmem

theorem mcq_block_core_no_blank (i : Nat) (m : MCQ) :
    ([] : List Char) ∉ mcq_block_core i m := by
  intro hmem
  rcases List.mem_cons.mp hmem with h1 | h1
  · exact question_header_ne_nil i m h1.symm
  · rcases List.mem_append.mp h1 with h2 | h2
    · obtain ⟨q, hq, he⟩ := List.mem_map.mp h2
      exact option_line_ne_nil q.1 q.2 he
    · rw [List.mem_singleton] at h2
      exact answer_line_ne_nil m h2.symm

theorem mcq_block_core_nl_free (i : Nat) (m : MCQ) (h : nl_free_mcq m) :
    ∀ l ∈ mcq_block_core i m, '\n' ∉ l := by
  obtain ⟨hq, ha, ho⟩ := h
  intro l hl
  rcases List.mem_cons.mp hl with rfl | h1
  · exact nl_not_mem_question_header i m hq
  · rcases List.mem_append.mp h1 with h2 | h2
    · obtain ⟨q, hq2, rfl⟩ := List.mem_map.mp h2
      exact nl_not_mem_option_line q.1 q.2
        (ho q.2 (List.snd_mem_of_mem_enumFrom (show q ∈ List.enumFrom 0 _ from hq2)))
    · rw [List.mem_singleton] at h2
      rw [h2]
      exact nl_not_mem_answer_line m ha

theorem save_lines_nl_free (mcqs : List MCQ) (h : ∀ m ∈ mcqs, nl_free_mcq m) :
    ∀ l ∈ save_lines mcqs, '\n' ∉ l := by
  intro l hl
  rw [save_lines, List.mem_flatMap] at hl
  obtain ⟨p, hp, hlp⟩ := hl
  have hm : nl_free_mcq p.2 :=
    h p.2 (List.snd_mem_of_mem_enumFrom (show p ∈ List.enumFrom 0 mcqs from hp))
  rw [mcq_block_lines_eq] at hlp
  rcases List.mem_append.mp hlp with h1 | h1
  · exact mcq_block_core_nl_free p.1 p.2 hm l h1
  · rw [List.mem_singleton] at h1
    rw [h1]
    simp

/-- Claim C2 (amended): for a list of records whose rendered fields contain
no newline character, the output file of `save_mcqs_to_file` consists of
exactly `N` blank-line-separated question blocks, the `i`-th being the
`1`-based-numbered header, one letter-labelled line per option (labels
`chr(65+j)` by position), and the verbatim `Answer:` line of the `i`-th
record. -/
theorem c2_formatter_blocks (mcqs : List MCQ) (h : ∀ m ∈ mcqs, nl_free_mcq m) :
    question_blocks (save_mcqs_to_file mcqs)
      = mcqs.enum.map (fun p => mcq_block_core p.1 p.2)
    ∧ (question_blocks (save_mcqs_to_file mcqs)).length = mcqs.length := by
  have hlines := split_lines_unlines (save_lines mcqs) (save_lines_nl_free mcqs h)
  have hblank : ∀ b ∈ mcqs.enum.map (fun p => mcq_block_core p.1 p.2),
      ([] : List Char) ∉ b := by
    intro b hb
    obtain ⟨p, hp, rfl⟩ := List.mem_map.mp hb
    exact mcq_block_core_no_blank p.1 p.2
  have key : question_blocks (save_mcqs_to_file mcqs)
      = mcqs.enum.map (fun p => mcq_block_core p.1 p.2) := by
    unfold question_blocks save_mcqs_to_file
    rw [hlines, save_lines_eq, split_blocks _ _ hblank,
      show split_sep ([] : List Char) [[]] = [[], []] from rfl, List.filter_append]
    rw [List.filter_eq_self.mpr
      (fun b hb => by obtain ⟨p, hp, rfl⟩ := List.mem_map.mp hb; rfl)]
    simp
  refine ⟨key, ?_⟩
  rw [key]
  simp [List.enum]

/-- Witness for the amended C2 at a concrete well-formed record list. -/
theorem c2_formatter_blocks_witness :
    (∀ m ∈ [sample_mcq], nl_free_mcq m)
    ∧ question_blocks (save_mcqs_to_file [sample_mcq])
        = [sample_mcq].enum.map (fun p => mcq_block_core p.1 p.2)
    ∧ (question_blocks (save_mcqs_to_file [sample_mcq])).length = [sample_mcq].length :=
  ⟨by decide, (c2_formatter_blocks [sample_mcq] (by decide)).1,
    (c2_formatter_blocks [sample_mcq] (by decide)).2⟩

/-- Counterexample to claim C2 as stated: for the single record
`newline_mcq`, whose question text itself contains a blank line, the output
file contains two blank-line-separated question blocks rather than one, so
the claim's unconditional block count fails. -/
theorem c2_counterexample :
    (question_blocks (save_mcqs_to_file [newline_mcq])).length ≠ [newline_mcq].length := by
  decide

/-! ### Invariance of the bracket slice under bracket-free affixes -/

theorem findIdx?_none_of_not_mem {c : Char} {l : List Char} (h : c ∉ l) :
    l.findIdx? (· == c) = none := by
  rw [List.findIdx?_eq_none_iff]
  intro x hx
  simp only [beq_eq_false_iff_ne]
  intro e
  exact h (e ▸ hx)

theorem findIdx?_lt_length {l : List Char} {p : Char → Bool} {i : Nat}
    (h : l.findIdx? p = some i) : i < l.length :=
  (List.findIdx?_eq_some_iff_findIdx_eq.mp h).1

theorem bracket_slice_append_left (a s : List Char) (ha : bracket_free a) :
    bracket_slice (a ++ s) = bracket_slice s := by
  obtain ⟨ha1, ha2⟩ := ha
  have hfa : a.findIdx? (· == '[') = none := findIdx?_none_of_not_mem ha1
  have hra : a.reverse.findIdx? (· == ']') = none :=
    findIdx?_none_of_not_mem (by simpa using ha2)
  unfold bracket_slice rfindIdx
  rw [List.findIdx?_append, hfa, Option.none_or, List.reverse_append,
    List.findIdx?_append, hra, Option.map_none', Option.or_none]
  cases hjs : s.findIdx? (· == '[') with
  | none => simp
  | some js =>
    cases hk : s.reverse.findIdx? (· == ']') with
    | none => simp
    | some k =>
      have hk' : k < s.length := by
        have := findIdx?_lt_length hk
        simpa using this
      have hjs' : js < s.length := findIdx?_lt_length hjs
      simp only [Option.map_some']
      congr 1
      have hd : (a ++ s).drop (js + a.length) = s.drop js := by
        rw [Nat.add_comm, List.drop_append]
      rw [hd, List.length_append]
      congr 1
      omega

theorem bracket_slice_append_right (s b : List Char) (hb : bracket_free b) :
    bracket_slice (s ++ b) = bracket_slice s := by
  obtain ⟨hb1, hb2⟩ := hb
  have hfb : b.findIdx? (· == '[') = none := findIdx?_none_of_not_mem hb1
  have hrb : b.reverse.findIdx? (· == ']') = none :=
    findIdx?_none_of_not_mem (by simpa using hb2)
  unfold bracket_slice rfindIdx
  rw [List.findIdx?_append, hfb, Option.map_none', Option.or_none, List.reverse_append,
    List.findIdx?_append, hrb, Option.none_or]
  cases hjs : s.findIdx? (· == '[') with
  | none => simp
  | some js =>
    cases hk : s.reverse.findIdx? (· == ']') with
    | none => simp
    | some k =>
      have hk' : k < s.length := by
        have := findIdx?_lt_length hk
        simpa using this
      have hjs' : js < s.length := findIdx?_lt_length hjs
      simp only [Option.map_some', List.length_reverse]
      congr 1
      have hd : (s ++ b).drop js = s.drop js ++ b :=
        List.drop_append_of_le_length (Nat.le_of_lt hjs')
      have hcount : (s ++ b).length - 1 - (k + b.length) + 1 - js
          = s.length - 1 - k + 1 - js := by
        rw [List.length_append]
        omega
      rw [hd, hcount, List.take_append_of_le_length]
      rw [List.length_drop]
      omega

theorem isPySpace_bracket_free (l : List Char) (h : ∀ c ∈ l, isPySpace c = true) :
    bracket_free l := by
  constructor <;> intro hm <;>
    (have hc := h _ hm; revert hc; decide)

theorem bracket_free_append (a b : List Char) (ha : bracket_free a) (hb : bracket_free b) :
    bracket_free (a ++ b) := by
  obtain ⟨ha1, ha2⟩ := ha
  obtain ⟨hb1, hb2⟩ := hb
  constructor <;> rw [List.mem_append] <;> rintro (hm | hm) <;> simp_all

theorem bracket_slice_pstrip (s : List Char) : bracket_slice (pstrip s) = bracket_slice s := by
  have hleft : bracket_free (s.takeWhile isPySpace) :=
    isPySpace_bracket_free _ (fun c hc => List.mem_takeWhile_imp hc)
  conv_rhs => rw [← List.takeWhile_append_dropWhile (p := isPySpace) (l := s)]
  rw [bracket_slice_append_left _ _ hleft]
  have hd : s.dropWhile isPySpace
      = pstrip s ++ ((s.dropWhile isPySpace).reverse.takeWhile isPySpace).reverse := by
    unfold pstrip
    conv_lhs => rw [← List.reverse_reverse (s.dropWhile isPySpace),
      ← List.takeWhile_append_dropWhile (p := isPySpace)
        (l := (s.dropWhile isPySpace).reverse)]
    rw [List.reverse_append]
  have hright : bracket_free (((s.dropWhile isPySpace).reverse.takeWhile isPySpace).reverse) :=
    isPySpace_bracket_free _ (fun c hc => List.mem_takeWhile_imp (by simpa using hc))
  rw [hd, bracket_slice_append_right _ _ hright]

/-- Claim C3: wrapping a backend response in markdown code-fence markers
(with arbitrary surrounding whitespace) does not change the structured MCQ
list recovered by the response parser: for every `loads` oracle, the parsed
result of the fenced response equals that of the unfenced one. -/
theorem c3_fence_invariance (t ws1 ws2 : List Char)
    (h1 : ∀ c ∈ ws1, isPySpace c = true) (h2 : ∀ c ∈ ws2, isPySpace c = true)
    (loads : List Char → Option (List MCQ)) :
    handle_response loads (fence_wrap ws1 ws2 t) = handle_response loads t := by
  have hs : bracket_slice (pstrip (fence_wrap ws1 ws2 t)) = bracket_slice (pstrip t) := by
    rw [bracket_slice_pstrip, bracket_slice_pstrip]
    unfold fence_wrap
    have hassoc : ws1 ++ str "```json\n" ++ t ++ str "\n```" ++ ws2
        = (ws1 ++ str "```json\n") ++ (t ++ (str "\n```" ++ ws2)) := by
      simp [List.append_assoc]
    rw [hassoc,
      bracket_slice_append_left _ _
        (bracket_free_append _ _ (isPySpace_bracket_free ws1 h1) ⟨by decide, by decide⟩),
      bracket_slice_append_right _ _
        (bracket_free_append _ _ ⟨by decide, by decide⟩ (isPySpace_bracket_free ws2 h2))]
  unfold handle_response
  rw [hs]

/-- Witness for C3 at a concrete fenced response. -/
theorem c3_fence_invariance_witness :
    ((∀ c ∈ str "  ", isPySpace c = true) ∧ (∀ c ∈ str "\n", isPySpace c = true))
    ∧ handle_response loads_none (fence_wrap (str "  ") (str "\n") (str "[1]"))
        = handle_response loads_none (str "[1]") :=
  ⟨⟨by decide, by decide⟩,
    c3_fence_invariance (str "[1]") (str "  ") (str "\n") (by decide) (by decide) loads_none⟩

/-! ### The saving branch writes the parsed records unvalidated -/

theorem main_after_text_saved (env : Env) (t d : List Char) (mcqs : List MCQ)
    (h : main_after_text env t d = .saved mcqs) :
    ∃ resp s, env.backend (build_prompt d t) = some resp
      ∧ bracket_slice (pstrip resp) = some s ∧ env.loads s = some mcqs := by
  unfold main_after_text at h
  by_cases hne : pstrip t = []
  · rw [if_pos hne] at h
    exact absurd h (by simp)
  · rw [if_neg hne] at h
    simp only [] at h
    by_cases hnil : generate_mcqs_with_ai env.loads env.backend t d = []
    · rw [if_pos hnil] at h
      exact absurd h (by simp)
    · rw [if_neg hnil] at h
      have hgen : generate_mcqs_with_ai env.loads env.backend t d = mcqs := by
        injection h
      have hmcqs : mcqs ≠ [] := hgen ▸ hnil
      have hgen' := hgen
      unfold generate_mcqs_with_ai at hgen'
      rw [if_neg hne] at hgen'
      cases hb : env.backend (build_prompt d t) with
      | none =>
        rw [hb] at hgen'
        exact absurd hgen'.symm hmcqs
      | some resp =>
        rw [hb] at hgen'
        have hh : handle_response env.loads resp = mcqs := hgen'
        unfold handle_response at hh
        cases hbs : bracket_slice (pstrip resp) with
        | none =>
          rw [hbs] at hh
          exact absurd hh.symm hmcqs
        | some s =>
          rw [hbs] at hh
          have hh2 : (env.loads s).getD [] = mcqs := hh
          cases hl : env.loads s with
          | none =>
            rw [hl] at hh2
            exact absurd hh2.symm hmcqs
          | some l =>
            rw [hl] at hh2
            exact ⟨resp, s, rfl, hbs, by rw [hl]; exact congrArg some hh2⟩

/-- Counterexample to claim C7 as stated: a run in which the backend's JSON
parses to a record with five options and an answer matching none of them;
`main` still reaches the saving branch and writes that record, so not every
written record satisfies the 4-options/answer-membership invariant. -/
theorem c7_counterexample :
    main env_bad (str "a.txt") (str "medium") = .saved [bad_mcq]
    ∧ ¬ mcq_invariant bad_mcq := by
  constructor
  · decide
  · rintro ⟨opts, ans, ho, ha, hlen, hmem⟩
    have hopts : opts = [str "o1", str "o2", str "o3", str "o4", str "o5"] := by
      have hb : bad_mcq.options = some [str "o1", str "o2", str "o3", str "o4", str "o5"] := rfl
      rw [hb] at ho
      exact (Option.some.inj ho).symm
    rw [hopts] at hlen
    simp at hlen

/-- Claim C7 (amended): every MCQ record written to the output file comes
verbatim and unvalidated from the backend's parsed JSON — whenever `main`
reaches the saving branch, the saved list is exactly what `loads` returned on
the bracket slice of the backend response, with no 4-options or
answer-membership check interfering. -/
theorem c7_passthrough (env : Env) (path difficulty : List Char) (mcqs : List MCQ)
    (h : main env path difficulty = .saved mcqs) :
    ∃ t resp s, (extract_text_from_pdf env.pdf_pages = some t ∨ t = env.txt_content)
      ∧ env.backend (build_prompt difficulty t) = some resp
      ∧ bracket_slice (pstrip resp) = some s
      ∧ env.loads s = some mcqs := by
  unfold main at h
  by_cases hex : env.file_exists = false
  · rw [if_pos hex] at h
    exact absurd h (by simp)
  · rw [if_neg hex] at h
    by_cases hpdf : file_extension path = str ".pdf"
    · rw [if_pos hpdf] at h
      cases hp : extract_text_from_pdf env.pdf_pages with
      | none =>
        rw [hp] at h
        exact absurd h (by simp)
      | some t =>
        rw [hp] at h
        obtain ⟨resp, s, h1, h2, h3⟩ := main_after_text_saved env t difficulty mcqs h
        exact ⟨t, resp, s, Or.inl rfl, h1, h2, h3⟩
    · rw [if_neg hpdf] at h
      by_cases htxt : file_extension path = str ".txt"
      · rw [if_pos htxt] at h
        obtain ⟨resp, s, h1, h2, h3⟩ :=
          main_after_text_saved env env.txt_content difficulty mcqs h
        exact ⟨env.txt_content, resp, s, Or.inr rfl, h1, h2, h3⟩
      · rw [if_neg htxt] at h
        exact absurd h (by simp)

/-- Witness for the amended C7 at the concrete invalid-record run. -/
theorem c7_passthrough_witness :
    main env_bad (str "a.txt") (str "medium") = .saved [bad_mcq]
    ∧ ∃ t resp s,
        (extract_text_from_pdf env_bad.pdf_pages = some t ∨ t = env_bad.txt_content)
      ∧ env_bad.backend (build_prompt (str "medium") t) = some resp
      ∧ bracket_slice (pstrip resp) = some s
      ∧ env_bad.loads s = some [bad_mcq] :=
  ⟨by decide, c7_passthrough env_bad (str "a.txt") (str "medium") [bad_mcq] (by decide)⟩

end MCQGen
